import Mathlib

/-!
Verification development for the OpenVPN-AS patch utility (src/ovpn.py).

The program is a single linear pipeline (`patch`): locate a source egg
archive, copy it to a temporary workspace, extract it, rename the compiled
module uprop.pyc to uprop2.pyc, write a facade source module uprop.py,
compile it with an external compiler, verify the compiled artifact, repack
the archive, back up the live egg, and deploy the patched egg over it.

The shallow embedding below models:
  * Python dict update and the facade wrapper new_figure;
  * strftime with the TIMESTAMP_FORMAT pattern and backup naming;
  * the file tree of the extracted egg as an association list from
    relative paths to file contents, with the rename / write / erase
    operations used by the pipeline;
  * the repack walk (rglob + relative_to + deflate entries) and its
    extraction inverse;
  * the whole patch pipeline as a pure function from an environment
    (filesystem and subprocess oracle) to an outcome and the final state
    of the externally visible resources (live egg, backup dir, workspace);
  * the module-level execution of the generated facade source, with class
    objects on a small heap so that in-place mutation of
    uprop2.UsageProperties is observable through both modules.
-/

set_option autoImplicit false

/-- Values stored in a Python dict, abstracted. -/
inductive PyV where
  | int (n : Int)
  | str (s : String)
  | other (n : Nat)
  deriving DecidableEq, Repr

/-- License/usage dictionary: association list with Python dict semantics
(unique keys in practice; lookup finds the first binding). -/
abbrev LicDict := List (String × PyV)

/-- Python dict lookup (d[k] as an Option). -/
def dictGet : LicDict → String → Option PyV
  | [], _ => none
  | (k, v) :: d, q => if k = q then some v else dictGet d q

/-- Python dict item assignment d[k] = v: update the existing binding in
place, else append a new binding (insertion order semantics). -/
def dictSet : LicDict → String → PyV → LicDict
  | [], k, v => [(k, v)]
  | (q, w) :: d, k, v => if q = k then (k, v) :: d else (q, w) :: dictSet d k v

/-- The wrapper written into the generated uprop.py:
new_figure(self, licdict) calls the captured original figure, forces
ret[concurrent_connections] = 200 on the returned mapping, and returns it.
self is opaque to the wrapper and passed through. -/
def new_figure {σ : Type} (old_figure : σ → LicDict → LicDict)
    (self : σ) (licdict : LicDict) : LicDict :=
  let ret := old_figure self licdict
  dictSet ret "concurrent_connections" (.int 200)

/-- TIMESTAMP_FORMAT of the source: strftime pattern %Y%m%d-%H%M%S. -/
def TIMESTAMP_FORMAT : String := "%Y%m%d-%H%M%S"

/-- A UTC wall-clock instant at second precision, as produced by
datetime.now(timezone.utc). -/
structure UTCTime where
  year : Nat
  month : Nat
  day : Nat
  hour : Nat
  minute : Nat
  second : Nat
  deriving DecidableEq, Repr

/-- Zero-pad the decimal representation of n to width w, as strftime does
for each numeric directive. -/
def padNum (w : Nat) (n : Nat) : String :=
  let s := toString n
  String.mk (List.replicate (w - s.length) '0') ++ s

/-- strftime applied to the fixed pattern %Y%m%d-%H%M%S. -/
def strftimeTS (t : UTCTime) : String :=
  padNum 4 t.year ++ padNum 2 t.month ++ padNum 2 t.day ++ "-" ++
  padNum 2 t.hour ++ padNum 2 t.minute ++ padNum 2 t.second

/-- Backup file name built by the pipeline:
BACKUP_DIR / (SOURCE_EGG.name ++ ".bak-" ++ timestamp). -/
def backupName (eggName : String) (t : UTCTime) : String :=
  eggName ++ ".bak-" ++ strftimeTS t

/-- Contents of one regular file inside the extracted tree. origUprop is
the original compiled uprop.pyc shipped in the egg; facadeSrc is the
uprop.py text written by the pipeline (a fixed string, independent of the
tree); facadePyc is the artifact the external compiler produces from
facadeSrc; data covers every other file. -/
inductive FileC where
  | origUprop
  | facadeSrc
  | facadePyc
  | data (n : Nat)
  deriving DecidableEq, Repr

/-- A path relative to the extraction root, one component per segment. -/
abbrev FPath := List String

/-- The extracted tree of an egg: relative path to file content. -/
abbrev FTree := List (FPath × FileC)

/-- Bytes of an egg archive on disk: either opaque original bytes (raw)
or the archive produced by the repack step from a tree (packed). -/
inductive EggC where
  | raw (n : Nat)
  | packed (t : FTree)
  deriving DecidableEq, Repr

/-- Lookup of a path in a tree (Path.exists / reading the entry). -/
def treeGet : FTree → FPath → Option FileC
  | [], _ => none
  | (q, c) :: t, p => if q = p then some c else treeGet t p

/-- Path.exists() on the tree. -/
def treeHas (t : FTree) (p : FPath) : Bool :=
  (treeGet t p).isSome

/-- Write a file at a path (Path.write_text / compiler output): replace
the entry if present, else add it. -/
def treeSet : FTree → FPath → FileC → FTree
  | [], p, c => [(p, c)]
  | (q, w) :: t, p, c => if q = p then (p, c) :: t else (q, w) :: treeSet t p c

/-- Remove a file at a path (Path.unlink with missing_ok). -/
def treeErase : FTree → FPath → FTree
  | [], _ => []
  | (q, w) :: t, p => if q = p then treeErase t p else (q, w) :: treeErase t p

/-- Path.rename(src, dst) with POSIX semantics: the destination, if it
exists, is silently replaced; no-op only if the source is absent. -/
def treeRename (t : FTree) (src dst : FPath) : FTree :=
  match treeGet t src with
  | none => t
  | some c => treeSet (treeErase t src) dst c

/-- Relative path of the lic directory inside the egg. -/
def licDir : FPath := ["pyovpn", "lic"]

/-- extract_dir / pyovpn / lic / uprop.pyc. -/
def upropPyc : FPath := licDir ++ ["uprop.pyc"]

/-- extract_dir / pyovpn / lic / uprop2.pyc. -/
def uprop2Pyc : FPath := licDir ++ ["uprop2.pyc"]

/-- extract_dir / pyovpn / lic / uprop.py. -/
def upropPy : FPath := licDir ++ ["uprop.py"]

/-- The exceptions the orchestrator distinguishes in its except clauses:
PermissionError, zipfile.BadZipFile, subprocess.SubprocessError, the
final catch-all Exception, and FileNotFoundError (caught locally around
the backup copy). -/
inductive Exn where
  | permission
  | badZip
  | subprocessErr
  | fileNotFound
  | other
  deriving DecidableEq, Repr

/-- The filesystem/subprocess operations of the pipeline body at which an
exception can be raised by the outside world. -/
inductive Step where
  | copyEgg
  | mkdirExtract
  | extractStep
  | renameStep
  | writeFacade
  | runCompiler
  | unlinkSrc
  | repackStep
  | backupStep
  | deployStep
  deriving DecidableEq, Repr

/-- Everything the pipeline observes from the outside world in one run:
the glob listing of EGG_DIR, the content of the selected live egg (none
when SOURCE_EGG.is_file() is false), the zip extraction oracle (none
models zipfile.BadZipFile), exception injection per operation, the
external compiler exit code and whether it produced uprop.pyc, what a
deploy interrupted by an exception leaves at the live path, and the UTC
clock reading used for the backup timestamp. -/
structure Env where
  egg_files : List String
  live0 : Option EggC
  extract : EggC → Option FTree
  exnAt : Step → Option Exn
  compile_rc : Nat
  pycProduced : Bool
  partialDeploy : Option EggC
  now : UTCTime

/-- Externally visible state after a run: content at the live egg path,
backup directory entries (name, content), whether the temporary workspace
still exists, plus two progress facts about the workspace tree (was the
facade source written, was the compiler invoked). -/
structure ExtState where
  live : Option EggC
  backups : List (String × EggC)
  wsPresent : Bool
  facadeWritten : Bool
  compileAttempted : Bool
  deriving DecidableEq, Repr

/-- Terminal outcome of one run of patch(). Every early return of the
source maps to one constructor; caught records which operation raised
which exception before the corresponding except clause logged it. -/
inductive Outcome where
  | noEgg
  | sourceMissing
  | missingModule
  | compileFailed
  | artifactMissing
  | caught (s : Step) (e : Exn)
  | deployed
  deriving DecidableEq, Repr

/-- find_source_egg: empty glob listing gives None, otherwise the first
match (a warning is logged when there are several; the pick is still the
first). -/
def find_source_egg (egg_files : List String) : Option String :=
  egg_files.head?

/-- The deploy copy: shutil.copy2(dest_egg, SOURCE_EGG) sets the live
path to the repacked egg; a copy interrupted by an exception leaves
whatever partial content the environment says. -/
def deployCopy (env : Env) (destEgg : EggC) (st : ExtState) : Outcome × ExtState :=
  match env.exnAt .deployStep with
  | some e => (.caught .deployStep e, { st with live := env.partialDeploy })
  | none => (.deployed, { st with live := some destEgg })

/-- The backup-then-deploy tail of the pipeline. A FileNotFoundError
raised by the backup copy is caught locally and only logged (the run
continues to the deploy without a backup entry); any other exception
there propagates to the outer handlers. The backup copies the live egg
as it was at the start of the run. -/
def backupAndDeploy (env : Env) (srcName : String) (liveC : EggC)
    (destEgg : EggC) (st : ExtState) : Outcome × ExtState :=
  match env.exnAt .backupStep with
  | some .fileNotFound => deployCopy env destEgg st
  | some e => (.caught .backupStep e, st)
  | none =>
      deployCopy env destEgg
        { st with backups := (backupName srcName env.now, liveC) :: st.backups }

/-- The patching work inside the try block, from the rename of uprop.pyc
through repacking, on a successfully extracted tree. Mirrors the source
line by line: missing uprop.pyc aborts; rename overwrites any existing
uprop2.pyc; the facade source is written; the compiler is invoked (non
zero exit aborts, with pyc output added only when the environment says
the compiler produced one); the artifact check aborts when uprop.pyc is
still absent; the intermediate source is unlinked unless debug mode; the
tree is repacked into dest_egg; then backup and deploy run. -/
def patchTree (env : Env) (debug : Bool) (srcName : String) (liveC : EggC)
    (tree : FTree) (st : ExtState) : Outcome × ExtState :=
  if ¬ treeHas tree upropPyc then (.missingModule, st) else
  match env.exnAt .renameStep with
  | some e => (.caught .renameStep e, st)
  | none =>
  let tree1 := treeRename tree upropPyc uprop2Pyc
  match env.exnAt .writeFacade with
  | some e => (.caught .writeFacade e, st)
  | none =>
  let tree2 := treeSet tree1 upropPy .facadeSrc
  let st := { st with facadeWritten := true }
  match env.exnAt .runCompiler with
  | some e => (.caught .runCompiler e, st)
  | none =>
  let st := { st with compileAttempted := true }
  if env.compile_rc ≠ 0 then (.compileFailed, st)
  else
  let tree3 := if env.pycProduced then treeSet tree2 upropPyc .facadePyc else tree2
  if ¬ treeHas tree3 upropPyc then (.artifactMissing, st)
  else
  match env.exnAt .unlinkSrc with
  | some e => (.caught .unlinkSrc e, st)
  | none =>
  let tree4 := if debug then tree3 else treeErase tree3 upropPy
  match env.exnAt .repackStep with
  | some e => (.caught .repackStep e, st)
  | none =>
  let destEgg := EggC.packed tree4
  backupAndDeploy env srcName liveC destEgg st

/-- The body of the try block: copy the egg into the workspace, make the
extraction directory, extract (a BadZipFile surfaces as that exception),
then hand the tree to patchTree. -/
def tryBody (env : Env) (debug : Bool) (srcName : String) (liveC : EggC)
    (st : ExtState) : Outcome × ExtState :=
  match env.exnAt .copyEgg with
  | some e => (.caught .copyEgg e, st)
  | none =>
  match env.exnAt .mkdirExtract with
  | some e => (.caught .mkdirExtract e, st)
  | none =>
  match env.exnAt .extractStep with
  | some e => (.caught .extractStep e, st)
  | none =>
  match env.extract liveC with
  | none => (.caught .extractStep .badZip, st)
  | some tree => patchTree env debug srcName liveC tree st

/-- The finally clause: unless debug mode is set, the temporary workspace
is removed (shutil.rmtree with ignore_errors); in debug mode nothing is
removed. -/
def finallyCleanup (debug : Bool) (st : ExtState) : ExtState :=
  if debug then st else { st with wsPresent := false }

/-- patch(): the whole pipeline. Zero glob matches return before any
workspace exists; a selected egg that is not a file likewise; otherwise
the temporary workspace is created, the try body runs, and the finally
clause always runs on its result. -/
def patch (env : Env) (debug : Bool) : Outcome × ExtState :=
  let st0 : ExtState :=
    { live := env.live0, backups := [], wsPresent := false
      facadeWritten := false, compileAttempted := false }
  match find_source_egg env.egg_files with
  | none => (.noEgg, st0)
  | some srcName =>
    match env.live0 with
    | none => (.sourceMissing, st0)
    | some liveC =>
      let st1 := { st0 with wsPresent := true }
      let res := tryBody env debug srcName liveC st1
      (res.1, finallyCleanup debug res.2)

/-- A node of the workspace filesystem seen by the repack walk: a regular
file with content, or a directory. -/
inductive FsNode where
  | file (c : FileC)
  | dir
  deriving DecidableEq, Repr

/-- The workspace filesystem as absolute paths (segment lists) to nodes. -/
abbrev Fs := List (FPath × FsNode)

/-- Membership of p strictly below root, which is what
extract_dir.rglob("*") enumerates: every entry whose path has root as a
proper prefix. -/
def strictUnder (root p : FPath) : Bool :=
  root.isPrefixOf p && decide (root.length < p.length)

/-- The rglob("*") walk: all entries strictly below the root, in listing
order. -/
def rglobAll (fs : Fs) (root : FPath) : Fs :=
  fs.filter fun e => strictUnder root e.1

/-- Compression method of a zip entry; the archive is opened with
zipfile.ZIP_DEFLATED so zf.write stores entries deflated. -/
inductive ZMethod where
  | deflated
  | stored
  deriving DecidableEq, Repr

/-- One entry written by zf.write(f, f.relative_to(extract_dir)): the
arcname relative to the walk root, the node, and the method. -/
structure ZipEntry where
  arcname : FPath
  node : FsNode
  method : ZMethod
  deriving DecidableEq, Repr

/-- The repack loop of the source: walk everything under root with
rglob("*") and write each entry keyed by its path relative to root, with
deflate compression. -/
def repack (fs : Fs) (root : FPath) : List ZipEntry :=
  (rglobAll fs root).map fun e => ⟨e.1.drop root.length, e.2, .deflated⟩

/-- ZipFile.extractall(dest) on an entry list: materialise each entry at
dest joined with its arcname. -/
def extractEntries (entries : List ZipEntry) (dest : FPath) : Fs :=
  entries.map fun e => (dest ++ e.arcname, e.node)

/-- Resolution of UsageProperties.figure when the module named m (as
m.pyc in the lic directory of tree t) is imported. The original compiled
module resolves immediately (0 wraps). A compiled facade was compiled
from the fixed generated source, which imports pyovpn.lic.uprop2 and
wraps the figure found there in one new_figure layer, so it resolves to
one more wrap than whatever uprop2 resolves to in the same tree. Fuel
bounds the import chain; none means resolution never reaches an original
implementation (missing module or a cyclic facade chain). -/
def figureWraps (t : FTree) : Nat → String → Option Nat
  | 0, _ => none
  | fuel + 1, m =>
    match treeGet t (licDir ++ [m ++ ".pyc"]) with
    | some .origUprop => some 0
    | some .facadePyc => (figureWraps t fuel "uprop2").map (· + 1)
    | _ => none

/-- Number of entries of a tree holding the original uprop implementation. -/
def countOrig (t : FTree) : Nat :=
  (t.filter fun e => e.2 = FileC.origUprop).length

/-- Extracted tree of the pristine egg: the original compiled module at
pyovpn/lic/uprop.pyc plus one unrelated file. -/
def tree0 : FTree :=
  [(upropPyc, .origUprop), (licDir ++ ["other.py"], .data 7)]

/-- Extracted tree of an egg that lacks pyovpn/lic/uprop.pyc. -/
def treeNoUprop : FTree :=
  [(licDir ++ ["other.py"], FileC.data 1)]

/-- Concrete zip oracle: the pristine egg bytes extract to tree0, the
uprop-less egg bytes to treeNoUprop, and any archive produced by the
repack step extracts back to exactly the tree it was packed from. -/
def extract0 : EggC → Option FTree
  | .raw 0 => some tree0
  | .raw 1 => some treeNoUprop
  | .raw _ => none
  | .packed t => some t

/-- Concrete healthy environment: one matching egg holding tree0, no
injected exceptions, a compiler that exits 0 and produces the artifact,
and the clock of the specification example. -/
def env1 : Env :=
  { egg_files := ["pyovpn-1.2.3.egg"], live0 := some (.raw 0)
    extract := extract0, exnAt := fun _ => none
    compile_rc := 0, pycProduced := true, partialDeploy := none
    now := ⟨2024, 3, 5, 10, 7, 22⟩ }

/-- First pipeline run on the pristine egg. -/
def run1 : Outcome × ExtState := patch env1 false

/-- Second-run environment: identical except that the live egg is now
whatever the first run deployed. -/
def env2 : Env := { env1 with live0 := run1.2.live }

/-- Second pipeline run, whose source is the once-patched live egg. -/
def run2 : Outcome × ExtState := patch env2 false

/-- Extracted tree of the live egg after one run. -/
def liveTree1 : FTree :=
  match run1.2.live with
  | some (.packed t) => t
  | _ => []

/-- Extracted tree of the live egg after two runs. -/
def liveTree2 : FTree :=
  match run2.2.live with
  | some (.packed t) => t
  | _ => []

/-- Environment whose compiler exits non-zero. -/
def envC2 : Env := { env1 with compile_rc := 1 }

/-- Environment with zero matching archives. -/
def envC7 : Env := { env1 with egg_files := [] }

/-- Environment whose egg extracts to a tree without uprop.pyc. -/
def envC8 : Env := { env1 with live0 := some (.raw 1) }

/-- Identity of a Python class object (the facade re-binds the very same
object that lives in the aliased module, so both modules share it). -/
abbrev ClassId := Nat

/-- A value bound in a module namespace: a reference to a class object,
or any other object. -/
inductive PyRef where
  | cls (c : ClassId)
  | plain (n : Nat)
  deriving DecidableEq, Repr

/-- The figure attribute of a class object: the original implementation,
or a new_figure wrapper around a captured implementation. -/
inductive Fig where
  | base (n : Nat)
  | wrapped (inner : Fig)
  deriving DecidableEq, Repr

/-- State while the generated uprop.py module body executes: the heap
assigning each class object its current figure attribute, the module
global old_figure, and the facade namespace built so far. The uprop2
namespace itself is immutable (only the class object it references is
mutated, through the heap). -/
structure ImpState where
  heap : ClassId → Fig
  old_figure : Option Fig
  facade : List (String × PyRef)

/-- Attribute lookup in a module namespace. -/
def nsGet : List (String × PyRef) → String → Option PyRef
  | [], _ => none
  | (k, v) :: d, q => if k = q then some v else nsGet d q

/-- The UsageProperties arm of the loop body in the generated uprop.py:
exec of the two statements capturing the current figure of the class
object into the module global old_figure and overwriting the figure
attribute of that same class object with new_figure (an in-place
mutation, visible to every holder of the reference). Any other name
leaves the state alone. -/
def wrapUsage (ns : List (String × PyRef)) (st : ImpState) (x : String) : ImpState :=
  if x = "UsageProperties" then
    match nsGet ns x with
    | some (.cls c) =>
        { st with old_figure := some (st.heap c)
                  heap := fun i => if i = c then Fig.wrapped (st.heap c) else st.heap i }
    | _ => st
  else st

/-- The re-binding arm: exec of the interpolated assignment binding the
value of the name from uprop2 into the facade namespace. -/
def bindName (ns : List (String × PyRef)) (st : ImpState) (x : String) : ImpState :=
  match nsGet ns x with
  | some v => { st with facade := st.facade ++ [(x, v)] }
  | none => st

/-- One iteration of the loop in the generated uprop.py over a name x of
dir(uprop2): dunder names are skipped; for UsageProperties the class
object is mutated first; then the value of the name is re-bound into the
facade namespace. -/
def stepSym (ns : List (String × PyRef)) (st : ImpState) (x : String) : ImpState :=
  if x.take 2 = "__" then st else bindName ns (wrapUsage ns st x) x

/-- Module-level execution of the generated uprop.py: fold the loop body
over dir(uprop2), starting from an untouched heap, old_figure = None and
an empty facade namespace. -/
def importFacade (ns : List (String × PyRef)) (names : List String)
    (heap0 : ClassId → Fig) : ImpState :=
  names.foldl (stepSym ns) { heap := heap0, old_figure := none, facade := [] }

/-- Concrete uprop2 namespace for evaluation: the UsageProperties class
object 0 and one helper binding. -/
def nsSample : List (String × PyRef) :=
  [("UsageProperties", .cls 0), ("helper", .plain 3)]

/-- Python dict assignment always leaves the assigned value readable at
the assigned key. -/
theorem dictGet_dictSet_self (d : LicDict) (k : String) (v : PyV) :
    dictGet (dictSet d k v) k = some v := by
  induction d with
  | nil => simp [dictSet, dictGet]
  | cons e d ih =>
      obtain ⟨q, w⟩ := e
      by_cases h : q = k
      · simp [dictSet, h, dictGet]
      · simp [dictSet, h, dictGet, ih]

/-- C1: after a successful pipeline run, the facade's wrapped
UsageProperties.figure first calls the original implementation on the
license dictionary, then forces the concurrent_connections key of the
returned mapping to 200 and returns that mapping; in particular, for
every original implementation, self and input mapping (including ones
lacking a concurrent_connections key), the returned mapping contains
concurrent_connections = 200. -/
theorem C1_wrapped_figure_forces_200 {σ : Type}
    (old_figure : σ → LicDict → LicDict) (self : σ) (licdict : LicDict) :
    new_figure old_figure self licdict
      = dictSet (old_figure self licdict) "concurrent_connections" (.int 200) ∧
    dictGet (new_figure old_figure self licdict) "concurrent_connections"
      = some (.int 200) :=
  ⟨rfl, dictGet_dictSet_self (old_figure self licdict) _ _⟩

/-- C7: with zero matching archives in the source directory, the pipeline
reports the missing egg and terminates with the live egg, the backup
directory and the workspace all untouched (no workspace was even
created), with no facade written and no compiler invoked. -/
theorem C7_no_egg_no_mutation (env : Env) (debug : Bool)
    (h : env.egg_files = []) :
    (patch env debug).1 = Outcome.noEgg ∧
    (patch env debug).2.live = env.live0 ∧
    (patch env debug).2.backups = [] ∧
    (patch env debug).2.wsPresent = false ∧
    (patch env debug).2.facadeWritten = false ∧
    (patch env debug).2.compileAttempted = false := by
  simp [patch, find_source_egg, h]

/-- C7 witness: the concrete empty-directory environment. -/
theorem C7_witness :
    (patch envC7 false).1 = Outcome.noEgg ∧
    (patch envC7 false).2.live = envC7.live0 ∧
    (patch envC7 false).2.backups = [] ∧
    (patch envC7 false).2.wsPresent = false ∧
    (patch envC7 false).2.facadeWritten = false ∧
    (patch envC7 false).2.compileAttempted = false :=
  C7_no_egg_no_mutation envC7 false rfl

/-- C8: when the extracted tree lacks pyovpn/lic/uprop.pyc, the run
aborts with the missing-module report before writing the facade: the
compiler is never invoked, no backup is made and the live egg is
untouched. -/
theorem C8_missing_module_aborts (env : Env) (debug : Bool) (src : String)
    (rest : List String) (liveC : EggC) (tree : FTree)
    (h1 : env.egg_files = src :: rest) (h2 : env.live0 = some liveC)
    (h3 : env.exnAt Step.copyEgg = none)
    (h4 : env.exnAt Step.mkdirExtract = none)
    (h5 : env.exnAt Step.extractStep = none)
    (h6 : env.extract liveC = some tree)
    (h7 : treeHas tree upropPyc = false) :
    (patch env debug).1 = Outcome.missingModule ∧
    (patch env debug).2.facadeWritten = false ∧
    (patch env debug).2.compileAttempted = false ∧
    (patch env debug).2.backups = [] ∧
    (patch env debug).2.live = env.live0 := by
  simp [patch, tryBody, patchTree, finallyCleanup, find_source_egg,
    h1, h2, h3, h4, h5, h6, h7]
  cases debug <;> simp

/-- C8 witness: the concrete egg whose tree has no uprop.pyc. -/
theorem C8_witness :
    (patch envC8 false).1 = Outcome.missingModule ∧
    (patch envC8 false).2.facadeWritten = false ∧
    (patch envC8 false).2.compileAttempted = false ∧
    (patch envC8 false).2.backups = [] ∧
    (patch envC8 false).2.live = envC8.live0 :=
  C8_missing_module_aborts envC8 false "pyovpn-1.2.3.egg" [] (EggC.raw 1)
    treeNoUprop rfl rfl rfl rfl rfl rfl (by decide)

/-- C4 counterexample: running the pipeline a second time on the
once-patched egg does complete, but figure resolution in the twice
patched tree never reaches the originally wrapped implementation: the
rename overwrote uprop2.pyc with the first run's facade, no copy of the
original implementation remains anywhere in the tree, and the facade
chain (uprop imports uprop2, which is a facade importing uprop2) cycles,
so resolution returns none instead of reaching the original. -/
theorem C4_counterexample :
    run2.1 = Outcome.deployed ∧
    treeGet liveTree2 uprop2Pyc = some FileC.facadePyc ∧
    countOrig liveTree2 = 0 ∧
    figureWraps liveTree2 100 "uprop" = none := by
  decide

/-- C4 amended: the second run still finds uprop.pyc (it is the first
run's facade), does not crash, and deploys; but its rename silently
replaces uprop2.pyc with that facade, so the twice-patched tree holds no
copy of the original implementation and figure resolution cycles (none)
instead of resolving through the originally wrapped implementation,
whereas after a single run it resolves with exactly one wrapper around
the original. -/
theorem C4_second_run_wraps_facade :
    run1.1 = Outcome.deployed ∧
    treeGet liveTree1 upropPyc = some FileC.facadePyc ∧
    treeGet liveTree1 uprop2Pyc = some FileC.origUprop ∧
    figureWraps liveTree1 100 "uprop" = some 1 ∧
    run2.1 = Outcome.deployed ∧
    treeGet liveTree2 uprop2Pyc = some FileC.facadePyc ∧
    countOrig liveTree2 = 0 ∧
    figureWraps liveTree2 100 "uprop" = none := by
  decide



/-- Writing at one path does not change reads at another path. -/
theorem treeGet_treeSet_ne (t : FTree) (p q : FPath) (c : FileC)
    (h : p ≠ q) : treeGet (treeSet t p c) q = treeGet t q := by
  induction t with
  | nil => simp [treeSet, treeGet, h]
  | cons e t ih =>
      obtain ⟨r, w⟩ := e
      by_cases hr : r = p
      · subst hr
        simp [treeSet, treeGet, h]
      · simp [treeSet, hr, treeGet, ih]

/-- Writing at a path leaves the written content readable there. -/
theorem treeGet_treeSet_self (t : FTree) (p : FPath) (c : FileC) :
    treeGet (treeSet t p c) p = some c := by
  induction t with
  | nil => simp [treeSet, treeGet]
  | cons e t ih =>
      obtain ⟨r, w⟩ := e
      by_cases hr : r = p
      · simp [treeSet, hr, treeGet]
      · simp [treeSet, hr, treeGet, ih]

/-- Erasing a path removes the entry at that path. -/
theorem treeGet_treeErase_self (t : FTree) (p : FPath) :
    treeGet (treeErase t p) p = none := by
  induction t with
  | nil => simp [treeErase, treeGet]
  | cons e t ih =>
      obtain ⟨r, w⟩ := e
      by_cases hr : r = p
      · simp [treeErase, hr, ih]
      · simp [treeErase, hr, treeGet, ih]

/-- After the rename and the facade write, nothing sits at uprop.pyc:
only the compiler output can put a file back there. -/
theorem upropPyc_gone (t : FTree) :
    treeGet (treeSet (treeRename t upropPyc uprop2Pyc) upropPy FileC.facadeSrc)
      upropPyc = none := by
  have h1 : upropPy ≠ upropPyc := by decide
  have h2 : uprop2Pyc ≠ upropPyc := by decide
  cases h : treeGet t upropPyc with
  | none => simp [treeRename, h, treeGet_treeSet_ne _ _ _ _ h1]
  | some c =>
      simp [treeRename, h, treeGet_treeSet_ne _ _ _ _ h1,
        treeGet_treeSet_ne _ _ _ _ h2, treeGet_treeErase_self]

/-- The try body never touches the workspace-present flag. -/
theorem tryBody_wsPresent (env : Env) (debug : Bool) (srcName : String)
    (liveC : EggC) (st : ExtState) :
    (tryBody env debug srcName liveC st).2.wsPresent = st.wsPresent := by
  unfold tryBody patchTree backupAndDeploy deployCopy
  repeat' split
  all_goals simp [treeHas, treeGet_treeSet_self, upropPyc_gone]

/-- C2: if the external compiler exits non-zero, or the expected compiled
artifact does not appear afterwards, the run aborts before the backup and
deploy steps: nothing is added to the backup directory and the live egg
keeps its pre-run content. -/
theorem C2_compile_failure_no_deploy (env : Env) (debug : Bool)
    (h : env.compile_rc ≠ 0 ∨ env.pycProduced = false) :
    (patch env debug).1 ≠ Outcome.deployed ∧
    (patch env debug).2.backups = [] ∧
    (patch env debug).2.live = env.live0 := by
  obtain ⟨o, s, hp⟩ : ∃ o s, patch env debug = (o, s) := ⟨_, _, rfl⟩
  rw [hp]
  simp only [patch, tryBody, patchTree, backupAndDeploy, deployCopy,
    finallyCleanup, find_source_egg] at hp
  repeat' split at hp
  all_goals injection hp with ho hs
  all_goals subst ho
  all_goals subst hs
  all_goals simp_all [treeHas, treeGet_treeSet_self, upropPyc_gone]

/-- C2 witness: the concrete environment whose compiler exits 1. -/
theorem C2_witness :
    (patch envC2 false).1 ≠ Outcome.deployed ∧
    (patch envC2 false).2.backups = [] ∧
    (patch envC2 false).2.live = envC2.live0 :=
  C2_compile_failure_no_deploy envC2 false (Or.inl (by decide))

/-- C3: the live egg path is written only by the final deploy copy: on
every run whose outcome is not deployed and whose abort was not an
exception raised by the deploy copy itself, the live egg ends byte
identical to its pre-run content, whatever step failed. -/
theorem C3_live_written_only_by_deploy (env : Env) (debug : Bool)
    (h1 : (patch env debug).1 ≠ Outcome.deployed)
    (h2 : ∀ e, (patch env debug).1 ≠ Outcome.caught Step.deployStep e) :
    (patch env debug).2.live = env.live0 := by
  obtain ⟨o, s, hp⟩ : ∃ o s, patch env debug = (o, s) := ⟨_, _, rfl⟩
  rw [hp] at h1 h2 ⊢
  simp only [patch, tryBody, patchTree, backupAndDeploy, deployCopy,
    finallyCleanup, find_source_egg] at hp
  repeat' split at hp
  all_goals injection hp with ho hs
  all_goals subst ho
  all_goals subst hs
  all_goals first
    | exact absurd rfl (h2 _)
    | simp_all

/-- C3 witness: a compile-failure abort leaves the live egg unchanged. -/
theorem C3_witness : (patch envC2 false).2.live = envC2.live0 :=
  C3_live_written_only_by_deploy envC2 false (by decide)
    (by intro e; cases e <;> decide)

/-- C5: on every exit path the temporary workspace is removed, unless the
debug flag is set, in which case the removal is skipped and the workspace
(created whenever the pipeline got past the two source checks) is
retained. -/
theorem C5_workspace_cleanup (env : Env) (debug : Bool) :
    (patch env debug).2.wsPresent
      = (debug && (!env.egg_files.isEmpty && env.live0.isSome)) := by
  cases hE : env.egg_files with
  | nil => simp [patch, find_source_egg, hE]
  | cons a l =>
      cases hL : env.live0 with
      | none => simp [patch, find_source_egg, hE, hL]
      | some c =>
          cases debug <;>
            simp [patch, find_source_egg, hE, hL, finallyCleanup,
              tryBody_wsPresent]

/-- C9: the backup written before deploy is the pre-run live egg under
the name of the live egg followed by .bak- and the UTC run timestamp at
second precision in the %Y%m%d-%H%M%S format; at 2024-03-05T10:07:22Z
against pyovpn-1.2.3.egg that name is exactly
pyovpn-1.2.3.egg.bak-20240305-100722. -/
theorem C9_backup_naming (env : Env) (debug : Bool) (src : String)
    (rest : List String) (liveC : EggC)
    (h1 : env.egg_files = src :: rest) (h2 : env.live0 = some liveC)
    (h3 : env.exnAt Step.backupStep = none)
    (h4 : (patch env debug).1 = Outcome.deployed) :
    (patch env debug).2.backups = [(backupName src env.now, liveC)] ∧
    backupName "pyovpn-1.2.3.egg" ⟨2024, 3, 5, 10, 7, 22⟩
      = "pyovpn-1.2.3.egg.bak-20240305-100722" := by
  refine ⟨?_, by decide⟩
  obtain ⟨o, s, hp⟩ : ∃ o s, patch env debug = (o, s) := ⟨_, _, rfl⟩
  rw [hp] at h4 ⊢
  simp only [patch, tryBody, patchTree, backupAndDeploy, deployCopy,
    finallyCleanup, find_source_egg, h1, h2, h3, List.head?_cons] at hp
  repeat' split at hp
  all_goals injection hp with ho hs
  all_goals subst ho
  all_goals subst hs
  all_goals simp_all

/-- C9 witness: the concrete healthy run at the specification's clock. -/
theorem C9_witness :
    (patch env1 false).2.backups
      = [(backupName "pyovpn-1.2.3.egg" env1.now, EggC.raw 0)] ∧
    backupName "pyovpn-1.2.3.egg" ⟨2024, 3, 5, 10, 7, 22⟩
      = "pyovpn-1.2.3.egg.bak-20240305-100722" :=
  C9_backup_naming env1 false "pyovpn-1.2.3.egg" [] (EggC.raw 0)
    rfl rfl rfl (by decide)

/-- A list prefix, re-appended to what drop removed, restores the list. -/
theorem append_drop_of_isPrefixOf (root p : FPath)
    (h : root.isPrefixOf p = true) :
    root ++ p.drop root.length = p := by
  rw [List.isPrefixOf_iff_prefix] at h
  obtain ⟨t, rfl⟩ := h
  rw [List.drop_left]

/-- C6: the repack step walks the tree under the extraction root
recursively, writes every regular file found there as an archive entry
keyed by its path relative to the root, every entry is written with
deflate compression, and extracting the produced entry list at the same
root reproduces exactly the walked tree. -/
theorem C6_repack_roundtrip (fs : Fs) (root : FPath) :
    (∀ p c, (p, FsNode.file c) ∈ fs → strictUnder root p = true →
      ZipEntry.mk (p.drop root.length) (FsNode.file c) ZMethod.deflated
        ∈ repack fs root) ∧
    (∀ e ∈ repack fs root, e.method = ZMethod.deflated) ∧
    extractEntries (repack fs root) root = rglobAll fs root := by
  refine ⟨?_, ?_, ?_⟩
  · intro p c hm hu
    exact List.mem_map.mpr ⟨(p, .file c), List.mem_filter.mpr ⟨hm, hu⟩, rfl⟩
  · intro e he
    obtain ⟨x, hx, rfl⟩ := List.mem_map.mp he
    rfl
  · have key : ∀ l : Fs, (∀ e ∈ l, root.isPrefixOf e.1 = true) →
        extractEntries
          (l.map fun e => ZipEntry.mk (e.1.drop root.length) e.2 ZMethod.deflated)
          root = l := by
      intro l
      induction l with
      | nil => intro _; rfl
      | cons e l ih =>
          intro hl
          obtain ⟨p, n⟩ := e
          have hp : root.isPrefixOf p = true := hl (p, n) (List.mem_cons_self _ _)
          simp only [extractEntries, List.map_cons, List.map_map] at ih ⊢
          rw [append_drop_of_isPrefixOf root p hp]
          rw [ih fun x hx => hl x (List.mem_cons_of_mem _ hx)]
    have hmem : ∀ e ∈ rglobAll fs root, root.isPrefixOf e.1 = true := by
      intro e he
      have hu := (List.mem_filter.mp he).2
      simp only [strictUnder, Bool.and_eq_true, decide_eq_true_eq] at hu
      exact hu.1
    exact key (rglobAll fs root) hmem

/-- Re-binding a name never touches the heap. -/
theorem bindName_heap (ns : List (String × PyRef)) (st : ImpState) (x : String) :
    (bindName ns st x).heap = st.heap := by
  unfold bindName
  split <;> rfl

/-- Re-binding a name never touches the captured old_figure. -/
theorem bindName_old (ns : List (String × PyRef)) (st : ImpState) (x : String) :
    (bindName ns st x).old_figure = st.old_figure := by
  unfold bindName
  split <;> rfl

/-- Re-binding a name keeps every existing facade binding. -/
theorem bindName_facade_mono (ns : List (String × PyRef)) (st : ImpState)
    (x : String) (e : String × PyRef) (h : e ∈ st.facade) :
    e ∈ (bindName ns st x).facade := by
  unfold bindName
  split
  · exact List.mem_append_left _ h
  · exact h

/-- The mutation arm never touches the facade namespace. -/
theorem wrapUsage_facade (ns : List (String × PyRef)) (st : ImpState)
    (x : String) : (wrapUsage ns st x).facade = st.facade := by
  unfold wrapUsage
  split
  · split <;> rfl
  · rfl

/-- The mutation arm does nothing on names other than UsageProperties. -/
theorem wrapUsage_ne (ns : List (String × PyRef)) (st : ImpState) (x : String)
    (h : x ≠ "UsageProperties") : wrapUsage ns st x = st := by
  unfold wrapUsage
  simp [h]

/-- A loop iteration on a name other than UsageProperties changes neither
the heap nor old_figure. -/
theorem stepSym_frame (ns : List (String × PyRef)) (st : ImpState) (x : String)
    (h : x ≠ "UsageProperties") :
    (stepSym ns st x).heap = st.heap ∧
    (stepSym ns st x).old_figure = st.old_figure := by
  unfold stepSym
  split
  · exact ⟨rfl, rfl⟩
  · rw [wrapUsage_ne ns st x h]
    exact ⟨bindName_heap ns st x, bindName_old ns st x⟩

/-- A loop iteration keeps every existing facade binding. -/
theorem stepSym_facade_mono (ns : List (String × PyRef)) (st : ImpState)
    (x : String) (e : String × PyRef) (h : e ∈ st.facade) :
    e ∈ (stepSym ns st x).facade := by
  unfold stepSym
  split
  · exact h
  · refine bindName_facade_mono _ _ _ _ ?_
    rw [wrapUsage_facade]
    exact h

/-- Folding the loop over names that avoid UsageProperties preserves the
heap and old_figure. -/
theorem foldl_stepSym_frame (ns : List (String × PyRef)) (names : List String)
    (st : ImpState) (h : "UsageProperties" ∉ names) :
    (names.foldl (stepSym ns) st).heap = st.heap ∧
    (names.foldl (stepSym ns) st).old_figure = st.old_figure := by
  induction names generalizing st with
  | nil => exact ⟨rfl, rfl⟩
  | cons x names ih =>
      have hx : x ≠ "UsageProperties" := by
        intro hh
        exact h (hh ▸ List.mem_cons_self x names)
      have hn : "UsageProperties" ∉ names := fun hm => h (List.mem_cons_of_mem _ hm)
      obtain ⟨h1, h2⟩ := stepSym_frame ns st x hx
      obtain ⟨i1, i2⟩ := ih (stepSym ns st x) hn
      exact ⟨i1.trans h1, i2.trans h2⟩

/-- Folding the loop keeps every existing facade binding. -/
theorem foldl_stepSym_facade_mono (ns : List (String × PyRef))
    (names : List String) (st : ImpState) (e : String × PyRef)
    (h : e ∈ st.facade) : e ∈ (names.foldl (stepSym ns) st).facade := by
  induction names generalizing st with
  | nil => exact h
  | cons x names ih => exact ih _ (stepSym_facade_mono ns st x e h)

/-- Running the loop over a dir listing holding UsageProperties exactly
once: the facade ends up binding the same class object that uprop2
references, that object's figure attribute on the heap has been
overwritten in place with exactly one wrapper around the figure it had
before the loop, and old_figure holds that pre-loop figure. -/
theorem loop_spec (ns : List (String × PyRef)) (c : ClassId)
    (hns : nsGet ns "UsageProperties" = some (.cls c)) :
    ∀ (names : List String) (st : ImpState),
      names.count "UsageProperties" = 1 →
      ("UsageProperties", PyRef.cls c) ∈ (names.foldl (stepSym ns) st).facade ∧
      (names.foldl (stepSym ns) st).heap c = Fig.wrapped (st.heap c) ∧
      (names.foldl (stepSym ns) st).old_figure = some (st.heap c) := by
  intro names
  induction names with
  | nil => intro st h; simp at h
  | cons x names ih =>
      intro st hcount
      by_cases hx : x = "UsageProperties"
      · subst hx
        have hrest : names.count "UsageProperties" = 0 := by
          rw [List.count_cons_self] at hcount
          omega
        have hnotin : "UsageProperties" ∉ names := List.count_eq_zero.mp hrest
        have hd : ¬("UsageProperties".take 2 = "__") := by decide
        have hstep : stepSym ns st "UsageProperties"
            = { st with
                  old_figure := some (st.heap c)
                  heap := fun i => if i = c then Fig.wrapped (st.heap c) else st.heap i
                  facade := st.facade ++ [("UsageProperties", PyRef.cls c)] } := by
          unfold stepSym wrapUsage bindName
          rw [if_neg hd, if_pos rfl, hns]
        rw [List.foldl_cons, hstep]
        obtain ⟨f1, f2⟩ := foldl_stepSym_frame ns names _ hnotin
        refine ⟨?_, ?_, ?_⟩
        · exact foldl_stepSym_facade_mono ns names _ _
            (List.mem_append_right _ (List.mem_singleton_self _))
        · rw [f1]
          simp
        · rw [f2]
      · have hcount' : names.count "UsageProperties" = 1 := by
          rwa [List.count_cons_of_ne (fun hh => hx hh.symm)] at hcount
        obtain ⟨h1, h2⟩ := stepSym_frame ns st x hx
        have hmain := ih (stepSym ns st x) hcount'
        rw [List.foldl_cons]
        rw [h1] at hmain
        exact hmain

/-- C10: importing the generated facade module mutates the aliased module
in place: during the loop over dir(uprop2), the wrapper is assigned onto
the figure attribute of the very class object that uprop2 references
(capturing the prior figure in old_figure) before that object is re-bound
into the facade namespace, so the facade exports the same, now mutated,
class object, and every importer of uprop2 — not only importers of the
facade name — observes the patched figure on the shared heap. -/
theorem C10_facade_mutates_uprop2_in_place (ns : List (String × PyRef))
    (names : List String) (heap0 : ClassId → Fig) (c : ClassId)
    (hns : nsGet ns "UsageProperties" = some (.cls c))
    (hcount : names.count "UsageProperties" = 1) :
    ("UsageProperties", PyRef.cls c) ∈ (importFacade ns names heap0).facade ∧
    (importFacade ns names heap0).heap c = Fig.wrapped (heap0 c) ∧
    (importFacade ns names heap0).old_figure = some (heap0 c) :=
  loop_spec ns c hns names
    { heap := heap0, old_figure := none, facade := [] } hcount

/-- C10 witness: the concrete two-name module namespace. -/
theorem C10_witness :
    ("UsageProperties", PyRef.cls 0)
      ∈ (importFacade nsSample ["UsageProperties", "helper"]
          (fun _ => Fig.base 5)).facade ∧
    (importFacade nsSample ["UsageProperties", "helper"]
        (fun _ => Fig.base 5)).heap 0 = Fig.wrapped (Fig.base 5) ∧
    (importFacade nsSample ["UsageProperties", "helper"]
        (fun _ => Fig.base 5)).old_figure = some (Fig.base 5) :=
  C10_facade_mutates_uprop2_in_place nsSample ["UsageProperties", "helper"]
    (fun _ => Fig.base 5) 0 (by decide) (by decide)
